import Mathlib

/-!
Shallow embedding of the dtwin RAG pipeline: the chunker (`chunkText`),
the settings store, the in-memory logger ring buffer, the two semantic
cache implementations, and the chat route orchestrator.  JS strings are
modelled as Lean `String`/`List Char`; JS numbers used for scores and
thresholds as `Rat`; fallible external calls as explicit outcome types.
-/

namespace Dtwin

/-! ## JS string primitives (char-list level, kernel-reducible) -/

/-- JS `\s` core character class (space, tab, newline, CR, vertical tab, form feed). -/
def isWs (c : Char) : Bool :=
  c == ' ' || c == '\t' || c == '\n' || c == '\r' || c == '\x0b' || c == '\x0c'

/-- Sentence terminator characters of the chunker's boundary pattern. -/
def isTerm (c : Char) : Bool :=
  c == '.' || c == '!' || c == '?'

/-- `replace(/\s+/g, ' ')`: collapse each maximal whitespace run to one space.
The flag records whether the previous character was part of a whitespace run. -/
def collapseWsAux : Bool → List Char → List Char
  | _, [] => []
  | prevWs, c :: cs =>
    if isWs c then
      if prevWs then collapseWsAux true cs
      else ' ' :: collapseWsAux true cs
    else c :: collapseWsAux false cs

def collapseWs (l : List Char) : List Char := collapseWsAux false l

/-- JS `trim()`: strip leading and trailing whitespace. -/
def trimChars (l : List Char) : List Char :=
  ((l.dropWhile isWs).reverse.dropWhile isWs).reverse

/-- `text.replace(/\s+/g, ' ').trim()` — the chunker's normalization. -/
def normalizeWs (s : String) : String :=
  String.mk (trimChars (collapseWs s.data))

/-- One step of the global regex scan for `/[^.!?]+[.!?]+/g`: skip characters
that cannot start a match (terminators), take a maximal non-terminator run,
then a maximal terminator run; no terminator run means no further match.
`fuel` bounds recursion (consumption per match is at least one character). -/
def scanSentences : Nat → List Char → List (List Char)
  | 0, _ => []
  | _, [] => []
  | fuel + 1, cs =>
    let cs1 := cs.dropWhile isTerm
    let r := cs1.takeWhile (fun c => !(isTerm c))
    let rest1 := cs1.dropWhile (fun c => !(isTerm c))
    let t := rest1.takeWhile isTerm
    let rest2 := rest1.dropWhile isTerm
    if t.isEmpty then []
    else (r ++ t) :: scanSentences fuel rest2

/-- JS `split(' ')`: split on every single space, keeping empty pieces. -/
def splitOnSpaceAux : List Char → List Char → List (List Char)
  | acc, [] => [acc.reverse]
  | acc, c :: cs =>
    if c == ' ' then acc.reverse :: splitOnSpaceAux [] cs
    else splitOnSpaceAux (c :: acc) cs

def splitOnSpace (l : List Char) : List (List Char) := splitOnSpaceAux [] l

/-- JS `join(' ')`. -/
def joinSpace : List (List Char) → List Char
  | [] => []
  | [w] => w
  | w :: ws => w ++ ' ' :: joinSpace ws

/-! ## Chunker (`chunkText`, src/unnamed/part_001) -/

/-- The backward overlap walk, on the reversed word list: words are taken while
the accumulated count is below `overlap`, each word contributing its length
plus one (the JS loop adds `words[i].length + 1`). -/
def overlapTake (overlap : Nat) : Nat → List (List Char) → List (List Char)
  | _, [] => []
  | acc, w :: ws =>
    if acc < overlap then w :: overlapTake overlap (acc + w.length + 1) ws
    else []

/-- The overlap words seeded into the next buffer, in original order. -/
def overlapWordsOf (cur : List Char) (overlap : Nat) : List (List Char) :=
  (overlapTake overlap 0 (splitOnSpace cur).reverse).reverse

/-- The overlap string seeded into the next chunk buffer (`overlapWords.join(' ')`). -/
def overlapSeed (chunk : String) (overlap : Nat) : String :=
  String.mk (joinSpace (overlapWordsOf chunk.data overlap))

/-- One iteration of the chunker's sentence loop: state is (closed chunks,
current buffer). -/
def chunkStep (chunkSize overlap : Nat) (st : List (List Char) × List Char)
    (s : List Char) : List (List Char) × List Char :=
  let acc := st.1
  let cur := st.2
  if chunkSize < cur.length + s.length ∧ 0 < cur.length then
    (acc ++ [trimChars cur], joinSpace (overlapWordsOf cur overlap) ++ ' ' :: s)
  else (acc, cur ++ s)

structure TextChunk where
  content : String
  chunkIndex : Nat
  totalChunks : Nat
deriving DecidableEq, Repr

/-- `chunkText(text, chunkSize, overlap)` from src/unnamed/part_001. -/
def chunkText (text : String) (chunkSize overlap : Nat) : List TextChunk :=
  let cleaned := (normalizeWs text).data
  if cleaned.length = 0 then []
  else
    let sentences :=
      match scanSentences (cleaned.length + 1) cleaned with
      | [] => [cleaned]
      | l => l
    let st := sentences.foldl (chunkStep chunkSize overlap) ([], [])
    let lastT := trimChars st.2
    let allChunks := if 0 < lastT.length then st.1 ++ [lastT] else st.1
    allChunks.enum.map fun p =>
      { content := String.mk p.2, chunkIndex := p.1, totalChunks := allChunks.length }

/-! ## Settings store (src/unnamed/part_000) -/

structure VectorDbSettings where
  topK : Nat
  scoreThreshold : Rat
deriving DecidableEq, Repr

structure LangCacheSettings where
  enabled : Bool
  similarityThreshold : Rat
deriving DecidableEq, Repr

structure LlmSettings where
  model : String
  temperature : Rat
  maxTokens : Nat
  systemPromptTemplate : String
  noDocsPromptTemplate : String
deriving DecidableEq, Repr

structure Settings where
  vectordb : VectorDbSettings
  langcache : LangCacheSettings
  llm : LlmSettings
deriving DecidableEq, Repr

def DEFAULT_SYSTEM_PROMPT : String :=
  "You are a helpful assistant that answers questions STRICTLY based on the provided document context.\n\nIMPORTANT RULES:\n1. ONLY use information from the provided context below to answer questions\n2. If the context doesn't fully answer the question, say \"Based on the available documents, I can only tell you that...\" and share what IS available\n3. Do NOT supplement with outside knowledge - if it's not in the context, don't include it\n4. Quote or reference specific sources when possible (e.g., \"According to [Source 1]...\")\n5. If the context is only tangentially related, acknowledge this limitation\n\nContext from retrieved documents:\n\x7b\x7bcontext\x7d\x7d"

def DEFAULT_NO_DOCS_PROMPT : String :=
  "You are a helpful assistant for a document-based Q&A system. The user asked a question but NO relevant documents were found in the knowledge base.\n\nYour response MUST:\n1. Clearly inform the user that no relevant information was found in the available documents\n2. Suggest they try rephrasing their question or ask about topics that might be in the document collection\n3. Do NOT answer the question using your general knowledge - only information from the documents should be used\n\nBe concise and helpful in guiding them."

def defaultSettings : Settings :=
  { vectordb := { topK := 5, scoreThreshold := 7/10 }
    langcache := { enabled := true, similarityThreshold := 95/100 }
    llm := { model := "gpt-4-turbo-preview", temperature := 7/10, maxTokens := 2048
             systemPromptTemplate := DEFAULT_SYSTEM_PROMPT
             noDocsPromptTemplate := DEFAULT_NO_DOCS_PROMPT } }

/-- A runtime `Partial<Settings.vectordb>` value: absent fields are `none`. -/
structure PartialVectorDbSettings where
  topK : Option Nat
  scoreThreshold : Option Rat

structure PartialLangCacheSettings where
  enabled : Option Bool
  similarityThreshold : Option Rat

structure PartialLlmSettings where
  model : Option String
  temperature : Option Rat
  maxTokens : Option Nat
  systemPromptTemplate : Option String
  noDocsPromptTemplate : Option String

structure PartialSettings where
  vectordb : Option PartialVectorDbSettings
  langcache : Option PartialLangCacheSettings
  llm : Option PartialLlmSettings

/-- JS `{...cur, ...maybe}` on the vectordb section: an absent section spreads
nothing; a present section overrides exactly the fields it carries. -/
def mergeVectordb (cur : VectorDbSettings) : Option PartialVectorDbSettings → VectorDbSettings
  | none => cur
  | some p => { topK := p.topK.getD cur.topK
                scoreThreshold := p.scoreThreshold.getD cur.scoreThreshold }

def mergeLangcache (cur : LangCacheSettings) : Option PartialLangCacheSettings → LangCacheSettings
  | none => cur
  | some p => { enabled := p.enabled.getD cur.enabled
                similarityThreshold := p.similarityThreshold.getD cur.similarityThreshold }

def mergeLlm (cur : LlmSettings) : Option PartialLlmSettings → LlmSettings
  | none => cur
  | some p => { model := p.model.getD cur.model
                temperature := p.temperature.getD cur.temperature
                maxTokens := p.maxTokens.getD cur.maxTokens
                systemPromptTemplate := p.systemPromptTemplate.getD cur.systemPromptTemplate
                noDocsPromptTemplate := p.noDocsPromptTemplate.getD cur.noDocsPromptTemplate }

/-- `updateSettings` body: the new value assigned to `currentSettings`. -/
def updateSettings (cur : Settings) (u : PartialSettings) : Settings :=
  { vectordb := mergeVectordb cur.vectordb u.vectordb
    langcache := mergeLangcache cur.langcache u.langcache
    llm := mergeLlm cur.llm u.llm }

/-- The full call: (new stored state, returned value). -/
def runUpdateSettings (cur : Settings) (u : PartialSettings) : Settings × Settings :=
  let s := updateSettings cur u
  (s, s)

/-! ## Logger ring buffer (src/lib/logger.ts) -/

inductive LogLevel | info | success | warning | error
deriving DecidableEq, Repr

inductive LogCategory | cache | retrieval | llm | gdrive | system
deriving DecidableEq, Repr

structure LogEntry where
  id : String
  timestamp : Nat
  level : LogLevel
  category : LogCategory
  message : String
  details : Option (List (String × String))
deriving DecidableEq, Repr

def MAX_LOGS : Nat := 500

/-- `addLog`'s effect on the `logs` array: push the entry and, when the length
exceeds `MAX_LOGS`, shift off the oldest entry. -/
def addLog (logs : List LogEntry) (e : LogEntry) : List LogEntry :=
  let l := logs ++ [e]
  if MAX_LOGS < l.length then l.drop 1 else l

/-! ## LangCache REST cache (src/lib/cache.ts) -/

namespace LangCacheRest

structure LangCacheConfig where
  host : String
  cacheId : String
  apiKey : String

/-- Outcome of an external `fetch`: an OK response with parsed body, a non-OK
HTTP status, or a thrown exception (network failure etc.). -/
inductive FetchResult (β : Type) where
  | ok (body : β)
  | httpError (status : Nat) (text : String)
  | thrown (msg : String)

structure RestCacheEntry where
  prompt : String
  response : String
  distance : Option Rat
  score : Option Rat
deriving DecidableEq, Repr

structure RestSearchBody where
  data : List RestCacheEntry
deriving DecidableEq, Repr

structure RestCacheResult where
  hit : Bool
  response : Option String
  distance : Option Rat
  cachedPrompt : Option String
deriving DecidableEq, Repr

def restMiss : RestCacheResult := ⟨false, none, none, none⟩

/-- `checkCache` before its surrounding try/catch: missing configuration and a
thrown fetch surface as errors; a non-OK status or an empty/responseless body
is an in-band miss; otherwise the first entry decides, with
`entry.distance ?? entry.score` reported. -/
def checkCacheBody (cfg : Option LangCacheConfig) (f : FetchResult RestSearchBody) :
    Except String RestCacheResult :=
  match cfg with
  | none => .error "LangCache environment variables not set"
  | some _ =>
    match f with
    | .thrown msg => .error msg
    | .httpError _ _ => .ok restMiss
    | .ok body =>
      .ok (match body.data with
        | [] => restMiss
        | e :: _ =>
          if e.response ≠ "" then
            ⟨true, some e.response, e.distance.orElse (fun _ => e.score), some e.prompt⟩
          else restMiss)

/-- `checkCache`: the try/catch wrapper recovers every error as `{hit: false}`. -/
def checkCache (cfg : Option LangCacheConfig) (f : FetchResult RestSearchBody) :
    RestCacheResult :=
  match checkCacheBody cfg f with
  | .ok r => r
  | .error _ => restMiss

inductive StoreOutcome where
  | stored
  | skipped
deriving DecidableEq, Repr

/-- `storeInCache` before its try/catch. -/
def storeInCacheBody (cfg : Option LangCacheConfig) (f : FetchResult Unit) :
    Except String StoreOutcome :=
  match cfg with
  | none => .error "LangCache environment variables not set"
  | some _ =>
    match f with
    | .thrown msg => .error msg
    | .httpError _ _ => .ok .skipped
    | .ok _ => .ok .stored

/-- `storeInCache`: the try/catch wrapper turns every error into a no-op. -/
def storeInCache (cfg : Option LangCacheConfig) (f : FetchResult Unit) : StoreOutcome :=
  match storeInCacheBody cfg f with
  | .ok o => o
  | .error _ => .skipped

end LangCacheRest

/-! ## Redis-based semantic cache (src/unnamed/part_003) -/

namespace RedisCache

def DEFAULT_DISTANCE_THRESHOLD : Rat := 15/100

structure CacheConfig where
  distanceThreshold : Option Rat
  ttl : Option Nat

structure Doc where
  prompt : String
  response : String
  distance : Rat
deriving DecidableEq, Repr

/-- Outcome of the embed-and-KNN-search prelude: any thrown error, or the
ranked document list (nearest first). -/
inductive SearchOutcome where
  | thrown (msg : String)
  | ok (documents : List Doc)

structure CacheResult where
  hit : Bool
  response : Option String
  similarity : Option Rat
deriving DecidableEq, Repr

/-- JS `config.distanceThreshold || DEFAULT_DISTANCE_THRESHOLD` (`0` is falsy). -/
def effectiveThreshold (cfg : CacheConfig) : Rat :=
  match cfg.distanceThreshold with
  | some t => if t = 0 then DEFAULT_DISTANCE_THRESHOLD else t
  | none => DEFAULT_DISTANCE_THRESHOLD

/-- `checkCache` from src/unnamed/part_003: a caught error or an empty result
is a miss; otherwise the nearest document is a hit exactly when its distance
is at most the effective threshold, returning the stored response and
`1 - distance` as similarity. -/
def checkCache (cfg : CacheConfig) (s : SearchOutcome) : CacheResult :=
  match s with
  | .thrown _ => ⟨false, none, none⟩
  | .ok [] => ⟨false, none, none⟩
  | .ok (d :: _) =>
    if d.distance ≤ effectiveThreshold cfg then
      ⟨true, some d.response, some (1 - d.distance)⟩
    else ⟨false, none, none⟩

end RedisCache

/-! ## Chat route orchestrator (src/app/api/chat/route.ts) -/

namespace ChatRoute

structure ChatMessage where
  role : String
  content : String
deriving DecidableEq, Repr

structure SearchHit where
  content : String
  filename : String
  score : Rat
deriving DecidableEq, Repr

inductive Effect where
  | ensureIndex
  | embedQuery
  | vectorSearch
  | cacheCheck
  | llmGenerate
  | cacheStore
deriving DecidableEq, Repr

def NO_DOCS_CONTEXT : String := "No relevant documents found in the knowledge base."

/-- `messages.filter((m) => m.role === 'user').pop()`. -/
def latestUserMessage (ms : List ChatMessage) : Option ChatMessage :=
  (ms.filter fun m => m.role == "user").getLast?

/-- The score filter of the route (lines 44-46): keep hits whose `score`
is at least `scoreThreshold`. -/
def relevantChunks (hits : List SearchHit) (scoreThreshold : Rat) : List SearchHit :=
  hits.filter fun c => decide (scoreThreshold ≤ c.score)

/-- Context assembly: labeled sources joined by the fixed delimiter, or the
no-documents sentinel. -/
def buildContext (chunks : List SearchHit) : String :=
  match chunks with
  | [] => NO_DOCS_CONTEXT
  | _ =>
    String.intercalate "\n\n---\n\n"
      (chunks.enum.map fun p =>
        "[Source " ++ toString (p.1 + 1) ++ ": " ++ p.2.filename ++ "]\n" ++ p.2.content)

/-- One pull from the generation stream: a text fragment, or a thrown error. -/
abbrev GenPull := Except String String

structure StreamRun where
  enqueued : List String
  fullResponse : String
  errored : Bool
deriving DecidableEq, Repr

/-- The `for await` loop of the stream `start` callback: each fragment is
appended to `fullResponse` and enqueued; a thrown error aborts the loop. -/
def streamLoop : List GenPull → StreamRun
  | [] => ⟨[], "", false⟩
  | Except.ok c :: rest =>
    let r := streamLoop rest
    ⟨c :: r.enqueued, c ++ r.fullResponse, r.errored⟩
  | Except.error _ :: _ => ⟨[], "", true⟩

structure StreamOutcome where
  enqueued : List String
  closed : Bool
  errored : Bool
  cacheStoreInvoked : Bool
  storedResponse : Option String
deriving DecidableEq, Repr

/-- The whole `start` callback: on success the controller is closed and, when
caching is enabled, the concatenated response is stored; on a thrown error the
controller signals an error and the store step is never reached. -/
def runStreamStart (cacheEnabled : Bool) (pulls : List GenPull) : StreamOutcome :=
  let r := streamLoop pulls
  if r.errored then ⟨r.enqueued, false, true, false, none⟩
  else
    ⟨r.enqueued, true, false, cacheEnabled,
      if cacheEnabled then some r.fullResponse else none⟩

/-- Environment of one POST call: what the external collaborators would
return when invoked. -/
structure ChatEnv where
  searchHits : List SearchHit
  cacheResult : LangCacheRest.RestCacheResult
  genPulls : List GenPull

inductive ChatResponse where
  | badRequest (error : String)
  | cached (body : String)
  | streamed (outcome : StreamOutcome)
deriving DecidableEq, Repr

/-- The POST handler as a function from the request body and the collaborator
environment to the response and the trace of external effects, mirroring
src/app/api/chat/route.ts step for step. -/
def POST (settings : Settings) (messages : Option (List ChatMessage)) (env : ChatEnv) :
    ChatResponse × List Effect :=
  match messages with
  | none => (.badRequest "No messages provided", [])
  | some ms =>
    if ms.isEmpty then (.badRequest "No messages provided", [])
    else
      match latestUserMessage ms with
      | none => (.badRequest "No user message found", [.ensureIndex])
      | some _ =>
        let rel := relevantChunks env.searchHits settings.vectordb.scoreThreshold
        let _context := buildContext rel
        let baseEffects := [Effect.ensureIndex, Effect.embedQuery, Effect.vectorSearch]
        if settings.langcache.enabled then
          match env.cacheResult.response with
          | some r =>
            if env.cacheResult.hit ∧ r ≠ "" then
              (.cached r, baseEffects ++ [Effect.cacheCheck])
            else
              let o := runStreamStart true env.genPulls
              (.streamed o,
                baseEffects ++ [Effect.cacheCheck, Effect.llmGenerate]
                  ++ if o.cacheStoreInvoked then [Effect.cacheStore] else [])
          | none =>
            let o := runStreamStart true env.genPulls
            (.streamed o,
              baseEffects ++ [Effect.cacheCheck, Effect.llmGenerate]
                ++ if o.cacheStoreInvoked then [Effect.cacheStore] else [])
        else
          let o := runStreamStart false env.genPulls
          (.streamed o,
            baseEffects ++ [Effect.llmGenerate]
              ++ if o.cacheStoreInvoked then [Effect.cacheStore] else [])

end ChatRoute

/-! ## Claim C1: cache hit decision -/

/-- C1 counterexample: the REST `checkCache` wired to the chat route reports a
hit for a found entry whose distance (0.99) exceeds
`CacheSettings.similarityThreshold` (0.95) under either reading of the
threshold conversion (`1 - 0.95` or `0.95` itself): no client-side threshold
comparison happens at all. -/
theorem c1_counterexample :
    LangCacheRest.checkCache (some ⟨"h", "c", "k"⟩)
        (LangCacheRest.FetchResult.ok ⟨[⟨"p", "r", some (99/100), none⟩]⟩) =
      ⟨true, some "r", some (99/100), some "p"⟩
    ∧ ¬ ((99 : Rat)/100 ≤ 1 - defaultSettings.langcache.similarityThreshold)
    ∧ ¬ ((99 : Rat)/100 ≤ defaultSettings.langcache.similarityThreshold) := by
  refine ⟨rfl, ?_, ?_⟩ <;> · simp only [defaultSettings]; norm_num

/-- C1 (amended): when a lookup finds at least one stored entry, the REST
`checkCache` (src/lib/cache.ts, the one used by the orchestrator) reports a
hit exactly when the first returned entry has a non-empty response — no
client-side distance/threshold comparison — returning that stored response;
the Redis-based `checkCache` (src/unnamed/part_003) reports a hit exactly
when the nearest entry's distance is at most the module's effective
`distanceThreshold` (inclusive at the boundary), returning the stored
response and `1 - distance`; `CacheSettings.similarityThreshold` is consulted
by neither. -/
theorem c1_amended_hit_decision :
    (∀ (cfg : LangCacheRest.LangCacheConfig) (e : LangCacheRest.RestCacheEntry)
        (tl : List LangCacheRest.RestCacheEntry),
      LangCacheRest.checkCache (some cfg) (LangCacheRest.FetchResult.ok ⟨e :: tl⟩) =
        if e.response ≠ "" then
          ⟨true, some e.response, e.distance.orElse (fun _ => e.score), some e.prompt⟩
        else LangCacheRest.restMiss)
    ∧ (∀ (cfg : RedisCache.CacheConfig) (d : RedisCache.Doc) (tl : List RedisCache.Doc),
      RedisCache.checkCache cfg (RedisCache.SearchOutcome.ok (d :: tl)) =
        if d.distance ≤ RedisCache.effectiveThreshold cfg then
          ⟨true, some d.response, some (1 - d.distance)⟩
        else ⟨false, none, none⟩) :=
  ⟨fun _ _ _ => rfl, fun _ _ _ => rfl⟩

/-! ## Claim C2: retrieval score filter direction -/

/-- C2: the store returns ascending cosine distance aliased as `score`
(lower = more similar), yet the route's filter keeps `score ≥ threshold`:
with threshold 1 it drops the identical passage (distance 0) and admits the
maximally dissimilar one (distance 2), the opposite of admitting passages at
least as similar as the threshold requires. -/
theorem c2_filter_direction_eval :
    ChatRoute.relevantChunks
        [⟨"identical passage", "f1", 0⟩, ⟨"opposite passage", "f2", 2⟩] 1 =
      [⟨"opposite passage", "f2", 2⟩]
    ∧ ((0 : Rat) ≤ 1 ∧ ¬ ((2 : Rat) ≤ 1)) := by decide

/-! ## Claim C3: chunking coverage -/

/-- C3: content loss — on the already-normalized input `"a. b"` the sentence
pattern drops the trailing `" b"` (no terminator follows it), so the single
produced chunk `"a."` cannot reconstruct the normalized text. -/
theorem c3_content_loss_eval :
    chunkText "a. b" 1000 200 = [⟨"a.", 0, 1⟩]
    ∧ normalizeWs "a. b" = "a. b"
    ∧ ("a." : String) ≠ "a. b" := by decide

/-! ## Claim C4: single-chunk idempotence on short input -/

/-- C4: the normalized input `"Hi. Yo"` is non-empty and far shorter than the
chunk size, yet the produced chunk's content is `"Hi."`, not the normalized
text — the trailing unterminated segment is dropped. -/
theorem c4_short_input_eval :
    chunkText "Hi. Yo" 1000 200 = [⟨"Hi.", 0, 1⟩]
    ∧ normalizeWs "Hi. Yo" = "Hi. Yo"
    ∧ (normalizeWs "Hi. Yo").length ≤ 1000
    ∧ ("Hi." : String) ≠ "Hi. Yo" := by decide

/-! ## Claim C5: overlap seeding -/

/-- C5 counterexample: chunking `"aaaa. b. cc."` with chunkSize 8 and
overlap 3 closes the chunk `"aaaa. b."` (length 8, not shorter than the
overlap) and seeds the next buffer with `"b."` of character length 2 < 3,
which is neither of word-aligned length at least the requested overlap nor
the entire closed chunk: the walk counts each word's length plus one. -/
theorem c5_counterexample :
    chunkText "aaaa. b. cc." 8 3 = [⟨"aaaa. b.", 0, 2⟩, ⟨"b.  cc.", 1, 2⟩]
    ∧ overlapSeed "aaaa. b." 3 = "b."
    ∧ ("b." : String).length < 3
    ∧ 3 ≤ ("aaaa. b." : String).length
    ∧ ("b." : String) ≠ "aaaa. b." := by decide

/-- The count maintained by the backward walk: each word contributes its
character length plus one (the JS loop adds `words[i].length + 1`). -/
def wordsCost (ws : List (List Char)) : Nat := (ws.map fun w => w.length + 1).sum

theorem overlapTake_pre (ov : Nat) (ws : List (List Char)) : ∀ acc,
    ∃ t, overlapTake ov acc ws ++ t = ws := by
  induction ws with
  | nil => exact fun _ => ⟨[], rfl⟩
  | cons w ws ih =>
    intro acc
    unfold overlapTake
    by_cases h : acc < ov
    · simp only [if_pos h]
      obtain ⟨t, ht⟩ := ih (acc + w.length + 1)
      exact ⟨t, by rw [List.cons_append, ht]⟩
    · simp only [if_neg h]
      exact ⟨w :: ws, by simp⟩

theorem overlapTake_cost (ov : Nat) (ws : List (List Char)) : ∀ acc,
    overlapTake ov acc ws = ws ∨ ov ≤ acc + wordsCost (overlapTake ov acc ws) := by
  induction ws with
  | nil => exact fun _ => Or.inl rfl
  | cons w ws ih =>
    intro acc
    unfold overlapTake
    by_cases h : acc < ov
    · simp only [if_pos h]
      rcases ih (acc + w.length + 1) with h1 | h1
      · exact Or.inl (by rw [h1])
      · right
        simp only [wordsCost, List.map_cons, List.sum_cons] at h1 ⊢
        omega
    · simp only [if_neg h]
      right
      simp only [wordsCost, List.map_nil, List.sum_nil]
      omega

theorem overlapTake_min (ov : Nat) (ws : List (List Char)) : ∀ acc,
    overlapTake ov acc ws ≠ [] →
    acc + wordsCost ((overlapTake ov acc ws).dropLast) < ov := by
  induction ws with
  | nil => intro acc h; exact absurd rfl h
  | cons w ws ih =>
    intro acc h
    by_cases hlt : acc < ov
    · unfold overlapTake
      simp only [if_pos hlt]
      rcases hr : overlapTake ov (acc + w.length + 1) ws with _ | ⟨x, xs⟩
      · simp only [hr, List.dropLast_single, wordsCost, List.map_nil, List.sum_nil]
        omega
      · have h2 := ih (acc + w.length + 1) (by rw [hr]; exact List.cons_ne_nil x xs)
        rw [hr] at h2
        simp only [List.dropLast_cons₂, wordsCost, List.map_cons, List.sum_cons] at h2 ⊢
        omega
    · exfalso
      apply h
      unfold overlapTake
      simp only [if_neg hlt]

theorem reverse_drop_one {α : Type} (l : List α) : l.reverse.drop 1 = l.dropLast.reverse := by
  induction l using List.reverseRecOn with
  | nil => rfl
  | append_singleton xs x _ => simp

theorem wordsCost_reverse (ws : List (List Char)) : wordsCost ws.reverse = wordsCost ws := by
  rw [wordsCost, wordsCost, List.map_reverse, List.sum_reverse]

theorem joinSpace_len : ∀ (w : List Char) (ws : List (List Char)),
    (joinSpace (w :: ws)).length + 1 = wordsCost (w :: ws) := by
  intro w ws
  induction ws generalizing w with
  | nil => simp [joinSpace, wordsCost]
  | cons x xs ih =>
    have := ih x
    simp only [joinSpace, wordsCost, List.map_cons, List.sum_cons, List.length_append,
      List.length_cons] at this ⊢
    omega

/-- C5 (amended): the overlap seeded into the next buffer is a suffix of the
closed buffer's space-split word list in original order; the backward walk
counts each word's length plus one (a separating space), so the seeded words
are the shortest word suffix whose counted length — equal to the seeded
string's character length plus one — reaches the requested overlap, or the
entire word list when even its full counted length stays below the overlap. -/
theorem c5_amended_overlap_seed (cur : List Char) (ov : Nat) :
    (∃ t, t ++ overlapWordsOf cur ov = splitOnSpace cur)
    ∧ (overlapWordsOf cur ov = splitOnSpace cur ∨ ov ≤ wordsCost (overlapWordsOf cur ov))
    ∧ (overlapWordsOf cur ov ≠ [] → wordsCost ((overlapWordsOf cur ov).drop 1) < ov)
    ∧ (overlapWordsOf cur ov ≠ [] →
        (joinSpace (overlapWordsOf cur ov)).length + 1 = wordsCost (overlapWordsOf cur ov)) := by
  unfold overlapWordsOf
  refine ⟨?_, ?_, ?_, ?_⟩
  · obtain ⟨t, ht⟩ := overlapTake_pre ov (splitOnSpace cur).reverse 0
    exact ⟨t.reverse, by rw [← List.reverse_append, ht, List.reverse_reverse]⟩
  · rcases overlapTake_cost ov (splitOnSpace cur).reverse 0 with h | h
    · left; rw [h, List.reverse_reverse]
    · right; rw [wordsCost_reverse]; omega
  · intro hne
    have hne' : overlapTake ov 0 (splitOnSpace cur).reverse ≠ [] := by
      intro h0
      apply hne
      rw [h0]
      rfl
    have hmin := overlapTake_min ov (splitOnSpace cur).reverse 0 hne'
    rw [reverse_drop_one, wordsCost_reverse]
    omega
  · intro hne
    rcases h : (overlapTake ov 0 (splitOnSpace cur).reverse).reverse with _ | ⟨w, rest⟩
    · exact absurd h hne
    · exact joinSpace_len w rest

/-- C5 amended witness at the closed chunk of the counterexample run. -/
theorem c5_amended_overlap_seed_witness :
    wordsCost ((overlapWordsOf ("aaaa. b." : String).data 3).drop 1) < 3
    ∧ (joinSpace (overlapWordsOf ("aaaa. b." : String).data 3)).length + 1 =
        wordsCost (overlapWordsOf ("aaaa. b." : String).data 3) :=
  ⟨(c5_amended_overlap_seed ("aaaa. b." : String).data 3).2.2.1 (by decide),
   (c5_amended_overlap_seed ("aaaa. b." : String).data 3).2.2.2 (by decide)⟩

/-! ## Claim C6: mid-stream generation failure -/

theorem streamLoop_fail (pre : List String) (msg : String) (rest : List ChatRoute.GenPull) :
    (ChatRoute.streamLoop (pre.map Except.ok ++ Except.error msg :: rest)).errored = true
    ∧ (ChatRoute.streamLoop (pre.map Except.ok ++ Except.error msg :: rest)).enqueued = pre := by
  induction pre with
  | nil => exact ⟨rfl, rfl⟩
  | cons c cs ih =>
    simp only [List.map_cons, List.cons_append, ChatRoute.streamLoop, List.append_eq]
    exact ⟨ih.1, by rw [ih.2]⟩

/-- C6: whenever the generation stream throws after any number of forwarded
fragments, the stream `start` callback forwards exactly the preceding
fragments, signals an error on the controller (never closes it normally),
and never invokes the cache store — regardless of whether caching is
enabled. -/
theorem c6_midstream_failure (cacheEnabled : Bool) (pre : List String) (msg : String)
    (rest : List ChatRoute.GenPull) :
    ChatRoute.runStreamStart cacheEnabled (pre.map Except.ok ++ Except.error msg :: rest) =
      ⟨pre, false, true, false, none⟩ := by
  have h := streamLoop_fail pre msg rest
  simp [ChatRoute.runStreamStart, h.1, h.2]

/-! ## Claim C7: cache failures never propagate -/

/-- A failing cache call: configuration missing, the fetch threw, or the
service answered with a non-OK status. -/
def restCallFailed {β : Type} (cfg : Option LangCacheRest.LangCacheConfig)
    (f : LangCacheRest.FetchResult β) : Prop :=
  cfg = none ∨ (∃ m, f = LangCacheRest.FetchResult.thrown m)
    ∨ (∃ s t, f = LangCacheRest.FetchResult.httpError s t)

/-- C7: on any internal failure `checkCache` returns `{hit: false}` and
`storeInCache` completes as a no-op — neither operation ever propagates an
error to the orchestrator (both are total functions whose catch wrappers
recover every error case). -/
theorem c7_cache_errors_recovered (cfg : Option LangCacheRest.LangCacheConfig)
    (f : LangCacheRest.FetchResult LangCacheRest.RestSearchBody)
    (g : LangCacheRest.FetchResult Unit)
    (hf : restCallFailed cfg f) (hg : restCallFailed cfg g) :
    LangCacheRest.checkCache cfg f = LangCacheRest.restMiss
    ∧ LangCacheRest.storeInCache cfg g = LangCacheRest.StoreOutcome.skipped := by
  constructor
  · rcases hf with h | ⟨m, rfl⟩ | ⟨s, t, rfl⟩
    · subst h; rfl
    · cases cfg <;> rfl
    · cases cfg <;> rfl
  · rcases hg with h | ⟨m, rfl⟩ | ⟨s, t, rfl⟩
    · subst h; rfl
    · cases cfg <;> rfl
    · cases cfg <;> rfl

/-- C7 witness: missing configuration on lookup, HTTP failure on store. -/
theorem c7_cache_errors_recovered_witness :
    LangCacheRest.checkCache none (LangCacheRest.FetchResult.thrown "network down") =
      LangCacheRest.restMiss
    ∧ LangCacheRest.storeInCache none
        (LangCacheRest.FetchResult.httpError 500 "server error") =
      LangCacheRest.StoreOutcome.skipped :=
  c7_cache_errors_recovered none _ _ (Or.inl rfl) (Or.inl rfl)

/-! ## Claim C8: requests without a user message are rejected -/

/-- C8: when the message list is empty or holds no message with role "user",
POST answers with a bad-request error and its effect trace contains neither
embedding nor vector search nor generation. -/
theorem c8_reject_no_user (st : Settings) (env : ChatRoute.ChatEnv)
    (ms : List ChatRoute.ChatMessage)
    (h : ms.filter (fun m => m.role == "user") = []) :
    (∃ e, (ChatRoute.POST st (some ms) env).1 = ChatRoute.ChatResponse.badRequest e)
    ∧ ∀ ef ∈ (ChatRoute.POST st (some ms) env).2,
        ef ≠ ChatRoute.Effect.embedQuery ∧ ef ≠ ChatRoute.Effect.vectorSearch
          ∧ ef ≠ ChatRoute.Effect.llmGenerate := by
  cases ms with
  | nil =>
    refine ⟨⟨"No messages provided", rfl⟩, ?_⟩
    intro ef hef
    simp [ChatRoute.POST] at hef
  | cons m ms' =>
    have hl : ChatRoute.latestUserMessage (m :: ms') = none := by
      simp [ChatRoute.latestUserMessage, h]
    refine ⟨⟨"No user message found", by simp [ChatRoute.POST, hl]⟩, ?_⟩
    intro ef hef
    simp [ChatRoute.POST, hl] at hef
    subst hef
    refine ⟨?_, ?_, ?_⟩ <;> intro hc <;> cases hc

def emptyEnv : ChatRoute.ChatEnv := ⟨[], LangCacheRest.restMiss, []⟩

/-- C8 witness: a single assistant-only message list. -/
theorem c8_reject_no_user_witness :
    (∃ e, (ChatRoute.POST defaultSettings (some [⟨"assistant", "hi"⟩]) emptyEnv).1 =
      ChatRoute.ChatResponse.badRequest e)
    ∧ ∀ ef ∈ (ChatRoute.POST defaultSettings (some [⟨"assistant", "hi"⟩]) emptyEnv).2,
        ef ≠ ChatRoute.Effect.embedQuery ∧ ef ≠ ChatRoute.Effect.vectorSearch
          ∧ ef ≠ ChatRoute.Effect.llmGenerate :=
  c8_reject_no_user defaultSettings emptyEnv _ (by decide)

/-! ## Claim C9: partial settings updates are frame-preserving -/

/-- C9: `updateSettings` changes exactly the fields mentioned by the partial
update — an absent section leaves its whole section untouched, an absent
field of a present section keeps its previous value, a present field takes
the supplied value — and the call returns the newly stored settings object. -/
theorem c9_update_settings_frame (cur : Settings) (u : PartialSettings) :
    (runUpdateSettings cur u).2 = (runUpdateSettings cur u).1
    ∧ (runUpdateSettings cur u).1 = updateSettings cur u
    ∧ (u.vectordb = none → (updateSettings cur u).vectordb = cur.vectordb)
    ∧ (u.langcache = none → (updateSettings cur u).langcache = cur.langcache)
    ∧ (u.llm = none → (updateSettings cur u).llm = cur.llm)
    ∧ (∀ p, u.vectordb = some p →
        ((p.topK = none → (updateSettings cur u).vectordb.topK = cur.vectordb.topK)
        ∧ (∀ v, p.topK = some v → (updateSettings cur u).vectordb.topK = v)
        ∧ (p.scoreThreshold = none →
            (updateSettings cur u).vectordb.scoreThreshold = cur.vectordb.scoreThreshold)
        ∧ (∀ v, p.scoreThreshold = some v →
            (updateSettings cur u).vectordb.scoreThreshold = v)))
    ∧ (∀ p, u.langcache = some p →
        ((p.enabled = none → (updateSettings cur u).langcache.enabled = cur.langcache.enabled)
        ∧ (∀ v, p.enabled = some v → (updateSettings cur u).langcache.enabled = v)
        ∧ (p.similarityThreshold = none →
            (updateSettings cur u).langcache.similarityThreshold =
              cur.langcache.similarityThreshold)
        ∧ (∀ v, p.similarityThreshold = some v →
            (updateSettings cur u).langcache.similarityThreshold = v)))
    ∧ (∀ p, u.llm = some p →
        ((p.model = none → (updateSettings cur u).llm.model = cur.llm.model)
        ∧ (∀ v, p.model = some v → (updateSettings cur u).llm.model = v)
        ∧ (p.temperature = none → (updateSettings cur u).llm.temperature = cur.llm.temperature)
        ∧ (∀ v, p.temperature = some v → (updateSettings cur u).llm.temperature = v)
        ∧ (p.maxTokens = none → (updateSettings cur u).llm.maxTokens = cur.llm.maxTokens)
        ∧ (∀ v, p.maxTokens = some v → (updateSettings cur u).llm.maxTokens = v)
        ∧ (p.systemPromptTemplate = none →
            (updateSettings cur u).llm.systemPromptTemplate = cur.llm.systemPromptTemplate)
        ∧ (∀ v, p.systemPromptTemplate = some v →
            (updateSettings cur u).llm.systemPromptTemplate = v)
        ∧ (p.noDocsPromptTemplate = none →
            (updateSettings cur u).llm.noDocsPromptTemplate = cur.llm.noDocsPromptTemplate)
        ∧ (∀ v, p.noDocsPromptTemplate = some v →
            (updateSettings cur u).llm.noDocsPromptTemplate = v))) := by
  refine ⟨rfl, rfl, ?_, ?_, ?_, ?_, ?_, ?_⟩
  · intro h; simp [updateSettings, mergeVectordb, h]
  · intro h; simp [updateSettings, mergeLangcache, h]
  · intro h; simp [updateSettings, mergeLlm, h]
  · intro p hp
    refine ⟨?_, ?_, ?_, ?_⟩ <;>
      first
        | (intro h; simp [updateSettings, mergeVectordb, hp, h])
        | (intro v h; simp [updateSettings, mergeVectordb, hp, h])
  · intro p hp
    refine ⟨?_, ?_, ?_, ?_⟩ <;>
      first
        | (intro h; simp [updateSettings, mergeLangcache, hp, h])
        | (intro v h; simp [updateSettings, mergeLangcache, hp, h])
  · intro p hp
    refine ⟨?_, ?_, ?_, ?_, ?_, ?_, ?_, ?_, ?_, ?_⟩ <;>
      first
        | (intro h; simp [updateSettings, mergeLlm, hp, h])
        | (intro v h; simp [updateSettings, mergeLlm, hp, h])

def u0 : PartialSettings :=
  { vectordb := some { topK := some 7, scoreThreshold := none }
    langcache := none
    llm := some { model := none, temperature := none, maxTokens := some 512,
                  systemPromptTemplate := none, noDocsPromptTemplate := none } }

/-- C9 witness: an update mentioning only `topK` and `maxTokens` changes
exactly those fields. -/
theorem c9_update_settings_frame_witness :
    (updateSettings defaultSettings u0).vectordb.topK = 7
    ∧ (updateSettings defaultSettings u0).vectordb.scoreThreshold =
        defaultSettings.vectordb.scoreThreshold
    ∧ (updateSettings defaultSettings u0).langcache = defaultSettings.langcache
    ∧ (updateSettings defaultSettings u0).llm.maxTokens = 512
    ∧ (updateSettings defaultSettings u0).llm.model = defaultSettings.llm.model := by
  have h := c9_update_settings_frame defaultSettings u0
  exact ⟨(h.2.2.2.2.2.1 _ rfl).2.1 7 rfl,
         (h.2.2.2.2.2.1 _ rfl).2.2.1 rfl,
         h.2.2.2.1 rfl,
         (h.2.2.2.2.2.2.2 _ rfl).2.2.2.2.2.1 512 rfl,
         (h.2.2.2.2.2.2.2 _ rfl).1 rfl⟩

/-! ## Claim C10: the log store is a 500-entry ring buffer -/

theorem foldl_addLog_drop (es : List LogEntry) :
    es.foldl addLog [] = es.drop (es.length - MAX_LOGS) := by
  induction es using List.reverseRecOn with
  | nil => rfl
  | append_singleton es e ih =>
    rw [List.foldl_append, List.foldl_cons, List.foldl_nil, ih]
    simp only [addLog, MAX_LOGS]
    have hlen : (es.drop (es.length - 500)).length = es.length - (es.length - 500) :=
      List.length_drop _ _
    by_cases hc : es.length < 500
    · rw [if_neg]
      · have h1 : es.length - 500 = 0 := by omega
        have h2 : (es ++ [e]).length - 500 = 0 := by
          simp only [List.length_append, List.length_cons, List.length_nil]
          omega
        rw [h1, h2]
        simp
      · simp only [List.length_append, List.length_cons, List.length_nil, hlen, not_lt]
        omega
    · rw [if_pos]
      · rw [List.drop_append_of_le_length (by rw [hlen]; omega), List.drop_drop]
        have hidx : es.length - 500 + 1 = (es ++ [e]).length - 500 := by
          simp only [List.length_append, List.length_cons, List.length_nil]
          omega
        rw [hidx, List.drop_append_of_le_length (by
          simp only [List.length_append, List.length_cons, List.length_nil]
          omega)]
      · simp only [List.length_append, List.length_cons, List.length_nil, hlen]
        omega

/-- C10: after any sequence of `addLog` calls starting from the empty store,
the stored entries are exactly the most recent at most `MAX_LOGS` (500)
entries in insertion order — each call appends its entry and, when the bound
would be exceeded, discards exactly the oldest one. -/
theorem c10_log_ring_bound (es : List LogEntry) :
    (es.foldl addLog []).length ≤ MAX_LOGS
    ∧ es.foldl addLog [] = es.drop (es.length - MAX_LOGS) := by
  refine ⟨?_, foldl_addLog_drop es⟩
  rw [foldl_addLog_drop es, List.length_drop]
  simp only [MAX_LOGS]
  omega

end Dtwin
